import Mathlib

/-!
# Verification of the Transformers4Rec next-item prediction core

A shallow embedding, in Lean 4, of the parts of the repository that the
specification's claims talk about:

* `transformers4rec/torch/model/prediction_task.py` — the label extraction of
  `NextItemPredictionTask.forward`, `remove_pad_3d`, the build-time validation,
  the tied/untied scoring head `_NextItemPredictionTask`, temperature scaling
  and `compute_metrics` key construction.
* `hf4rec/recsys_main.py` — the incremental / sliding time-window loop of
  `main`, the negative-sampling popularity refresh and the average-over-days
  (`_AOD`) summary.

Tensors are modelled as (nested) lists; float entries as rationals (or reals
where a transcendental `log_softmax` is involved); Python exceptions as
`Except String`.
-/

namespace T4Rec

/-! ## Tensor primitives

`torch.masked_select(t, m)` on equal-shape 1-D tensors keeps the entries of
`t` whose mask entry is true, in order. -/

/-- `torch.masked_select` on flat (1-D) tensors of equal length. -/
def maskedSelect {α : Type} (xs : List α) (mask : List Bool) : List α :=
  ((xs.zip mask).filter (fun q => q.2)).map (fun q => q.1)

/-- `mask.unsqueeze(1).expand_as(t)` followed by row-major flattening, for a
2-D tensor `t` whose rows have length `d`: every mask bit is repeated `d`
times. -/
def expandMask (mask : List Bool) (d : Nat) : List Bool :=
  (mask.map (fun b => List.replicate d b)).flatten

/-- `t.view(-1, d)`: regroup a flat list into consecutive rows of length `d`
(faithful whenever `0 < d` and `d` divides the length, the only case `torch`
accepts). -/
def viewRows {α : Type} (d : Nat) : List α → List (List α)
  | [] => []
  | x :: xs => (x :: xs.take (d - 1)) :: viewRows d (xs.drop (d - 1))
termination_by l => l.length
decreasing_by simp [List.length_drop]; omega

/-! ## `NextItemPredictionTask.forward`: label extraction
(prediction_task.py, lines 426–430) -/

/-- `trg_flat = labels.flatten()` for a 2-D label tensor of shape `[B, S]`. -/
def trgFlat (labels : List (List Int)) : List Int :=
  labels.flatten

/-- `non_pad_mask = trg_flat != self.padding_idx`. -/
def nonPadMask (labels : List (List Int)) (padding_idx : Int) : List Bool :=
  (trgFlat labels).map (fun v => v != padding_idx)

/-- `labels_all = torch.masked_select(trg_flat, non_pad_mask)`. -/
def labels_all (labels : List (List Int)) (padding_idx : Int) : List Int :=
  maskedSelect (trgFlat labels) (nonPadMask labels padding_idx)

/-- `NextItemPredictionTask.remove_pad_3d` (prediction_task.py, lines
449–456): flatten the `[B, S, D]` hidden-state tensor over its first two
dims, mask-select with the mask expanded along the hidden dim, and view the
result back as rows of length `D`. -/
def remove_pad_3d (inp_tensor : List (List (List ℚ))) (non_pad_mask : List Bool)
    (d : Nat) : List (List ℚ) :=
  let flat := inp_tensor.flatten
  viewRows d (maskedSelect flat.flatten (expandMask non_pad_mask d))

/-! ## Lemmas about the tensor primitives -/

theorem maskedSelect_nil {α : Type} (m : List Bool) :
    maskedSelect ([] : List α) m = [] := by
  simp [maskedSelect]

theorem maskedSelect_cons {α : Type} (a : α) (xs : List α) (b : Bool)
    (m : List Bool) :
    maskedSelect (a :: xs) (b :: m)
      = (if b then [a] else []) ++ maskedSelect xs m := by
  cases b <;> simp [maskedSelect]

theorem maskedSelect_map_eq_filter {α : Type} (xs : List α) (p : α → Bool) :
    maskedSelect xs (xs.map p) = xs.filter p := by
  induction xs with
  | nil => simp [maskedSelect]
  | cons a xs ih =>
      rw [List.map_cons, maskedSelect_cons, ih, List.filter_cons]
      cases h : p a <;> simp [h]

theorem length_maskedSelect {α : Type} (xs : List α) (m : List Bool)
    (h : xs.length = m.length) :
    (maskedSelect xs m).length = m.countP id := by
  induction xs generalizing m with
  | nil =>
      cases m with
      | nil => simp [maskedSelect]
      | cons b m => simp at h
  | cons a xs ih =>
      cases m with
      | nil => simp at h
      | cons b m =>
          rw [maskedSelect_cons, List.countP_cons]
          cases b <;> simp_all

theorem maskedSelect_append {α : Type} (xs ys : List α) (m₁ m₂ : List Bool)
    (h : xs.length = m₁.length) :
    maskedSelect (xs ++ ys) (m₁ ++ m₂)
      = maskedSelect xs m₁ ++ maskedSelect ys m₂ := by
  induction xs generalizing m₁ with
  | nil =>
      cases m₁ with
      | nil => simp [maskedSelect]
      | cons b m => simp at h
  | cons a xs ih =>
      cases m₁ with
      | nil => simp at h
      | cons b m =>
          simp only [List.cons_append, maskedSelect_cons]
          rw [ih m (by simpa using h), List.append_assoc]

theorem maskedSelect_replicate {α : Type} (r : List α) (b : Bool) :
    maskedSelect r (List.replicate r.length b) = if b then r else [] := by
  induction r with
  | nil => cases b <;> simp [maskedSelect]
  | cons a r ih =>
      rw [List.length_cons, List.replicate_succ, maskedSelect_cons, ih]
      cases b <;> simp

theorem maskedSelect_flatten {α : Type} (rows : List (List α))
    (mask : List Bool) (d : Nat) (hlen : rows.length = mask.length)
    (hrow : ∀ r ∈ rows, r.length = d) :
    maskedSelect rows.flatten (expandMask mask d)
      = (maskedSelect rows mask).flatten := by
  induction rows generalizing mask with
  | nil =>
      cases mask with
      | nil => simp [maskedSelect, expandMask]
      | cons b m => simp at hlen
  | cons r rs ih =>
      cases mask with
      | nil => simp at hlen
      | cons b m =>
          have hr : r.length = d := hrow r (by simp)
          rw [List.flatten_cons, expandMask, List.map_cons, List.flatten_cons,
            ← expandMask, maskedSelect_append r _ _ _ (by simp [hr]),
            ih m (by simpa using hlen) (fun x hx => hrow x (by simp [hx])),
            maskedSelect_cons]
          have hrep : List.replicate d b = List.replicate r.length b := by
            rw [hr]
          rw [hrep, maskedSelect_replicate]
          cases b <;> simp

theorem viewRows_flatten {α : Type} (rows : List (List α)) (d : Nat)
    (hd : 0 < d) (hrow : ∀ r ∈ rows, r.length = d) :
    viewRows d rows.flatten = rows := by
  induction rows with
  | nil => simp [viewRows]
  | cons r rs ih =>
      cases r with
      | nil =>
          have := hrow [] (by simp)
          simp at this
          omega
      | cons y ys =>
          have hr : ys.length = d - 1 := by
            have := hrow (y :: ys) (by simp)
            simp at this
            omega
          rw [List.flatten_cons, List.cons_append, viewRows]
          congr 1
          · rw [← hr, List.take_left]
          · rw [← hr, List.drop_left,
              ih (fun x hx => hrow x (by simp [hx]))]

theorem filter_zip_maskedSelect {α β : Type} (xs : List α) (ys : List β)
    (p : α → Bool) (h : xs.length = ys.length) :
    (xs.filter p).zip (maskedSelect ys (xs.map p))
      = (xs.zip ys).filter (fun q => p q.1) := by
  induction xs generalizing ys with
  | nil => simp [maskedSelect]
  | cons a xs ih =>
      cases ys with
      | nil => simp at h
      | cons y ys =>
          rw [List.map_cons, maskedSelect_cons, List.filter_cons,
            List.zip_cons_cons, List.filter_cons]
          cases hp : p a
          · simpa using ih ys (by simpa using h)
          · simpa using ih ys (by simpa using h)

theorem mem_of_mem_maskedSelect {α : Type} {xs : List α} {m : List Bool}
    {a : α} (h : a ∈ maskedSelect xs m) : a ∈ xs := by
  simp only [maskedSelect, List.mem_map, List.mem_filter] at h
  obtain ⟨⟨a', b⟩, ⟨hz, _⟩, rfl⟩ := h
  exact (List.of_mem_zip hz).1

theorem labels_all_eq_filter (L : List (List Int)) (p : Int) :
    labels_all L p = (trgFlat L).filter (fun v => v != p) := by
  rw [labels_all, nonPadMask, maskedSelect_map_eq_filter]

/-- `remove_pad_3d` is row filtering: on a `[B, S, D]` tensor whose innermost
vectors all have length `d > 0`, it keeps exactly the rows (in row-major
order) whose mask bit is true. -/
theorem remove_pad_3d_eq_maskedSelect (x : List (List (List ℚ)))
    (mask : List Bool) (d : Nat) (hd : 0 < d)
    (hlen : x.flatten.length = mask.length)
    (hD : ∀ xr ∈ x, ∀ v ∈ xr, v.length = d) :
    remove_pad_3d x mask d = maskedSelect x.flatten mask := by
  have hrows : ∀ r ∈ x.flatten, r.length = d := by
    intro r hr
    rw [List.mem_flatten] at hr
    obtain ⟨xr, hxr, hrxr⟩ := hr
    exact hD xr hxr r hrxr
  rw [remove_pad_3d]
  rw [maskedSelect_flatten _ _ _ hlen hrows,
    viewRows_flatten _ _ hd
      (fun r hr => hrows r (mem_of_mem_maskedSelect hr))]

theorem flatten_length_eq {α β : Type} (L : List (List α))
    (x : List (List β))
    (h : List.Forall₂ (fun lr xr => List.length xr = List.length lr) L x) :
    x.flatten.length = L.flatten.length := by
  induction h with
  | nil => simp
  | cons hab _ ih => simp [hab, ih]

/-! ## Claim C1 -/

/-- C1: for every 2-D label tensor `L` of shape `[B, S]`, padding sentinel
`p`, and 3-D hidden-state tensor `x` of shape `[B, S, D]`, the label
extraction of `NextItemPredictionTask.forward` produces a flat label sequence
whose length equals the number of positions of `L` not equal to `p` in
row-major order, `remove_pad_3d` produces a 2-D state matrix with the same
number of rows filtered by the same mask in the same order, and
`labels_flat[i]` is aligned 1:1 with `states_flat[i]` (their zip is the
row-major zip of `L` with the state rows, filtered by the non-padding
condition on the label). -/
theorem claim_C1 (L : List (List Int)) (x : List (List (List ℚ)))
    (p : Int) (d : Nat) (hd : 0 < d)
    (hshape : List.Forall₂ (fun lr xr => List.length xr = List.length lr) L x)
    (hD : ∀ xr ∈ x, ∀ v ∈ xr, v.length = d) :
    (labels_all L p).length = (trgFlat L).countP (fun v => v != p)
    ∧ (remove_pad_3d x (nonPadMask L p) d).length = (labels_all L p).length
    ∧ (labels_all L p).zip (remove_pad_3d x (nonPadMask L p) d)
        = ((trgFlat L).zip x.flatten).filter (fun q => q.1 != p) := by
  have hx : x.flatten.length = (trgFlat L).length := flatten_length_eq L x hshape
  have hmask : (nonPadMask L p).length = (trgFlat L).length := by
    simp [nonPadMask]
  have hrpd : remove_pad_3d x (nonPadMask L p) d
      = maskedSelect x.flatten (nonPadMask L p) :=
    remove_pad_3d_eq_maskedSelect x _ d hd (by omega) hD
  refine ⟨?_, ?_, ?_⟩
  · rw [labels_all_eq_filter, ← List.countP_eq_length_filter]
  · rw [hrpd, length_maskedSelect _ _ (by omega), labels_all,
      length_maskedSelect _ _ (by omega), nonPadMask]
  · rw [hrpd, labels_all_eq_filter, nonPadMask,
      filter_zip_maskedSelect _ _ _ (by omega)]

/-- Witness for C1 at a concrete batch: `B = 2`, `S = 2`, `D = 1`,
labels `[[1, 0], [2, 3]]`, padding sentinel `0`. -/
theorem claim_C1_witness :
    (labels_all [[1, 0], [2, 3]] 0).length
        = (trgFlat [[1, 0], [2, 3]]).countP (fun v => v != 0)
    ∧ (remove_pad_3d [[[5], [6]], [[7], [8]]]
          (nonPadMask [[1, 0], [2, 3]] 0) 1).length
        = (labels_all [[1, 0], [2, 3]] 0).length
    ∧ (labels_all [[1, 0], [2, 3]] 0).zip
          (remove_pad_3d [[[5], [6]], [[7], [8]]]
            (nonPadMask [[1, 0], [2, 3]] 0) 1)
        = ((trgFlat [[1, 0], [2, 3]]).zip
            ([[[5], [6]], [[7], [8]]] : List (List (List ℚ))).flatten).filter
            (fun q => q.1 != 0) :=
  claim_C1 [[1, 0], [2, 3]] [[[5], [6]], [[7], [8]]] 0 1 (by decide)
    (by decide) (by decide)

/-! ## The time-window controller loop (hf4rec/recsys_main.py, main,
lines 235–251) -/

/-- `max_time_index`: `final_time_window_index`, lowered by
`training_time_window_size - 1` in sliding-window
(`no_incremental_training`) mode. -/
def maxTimeIndex (no_incremental_training : Bool)
    (final_time_window_index training_time_window_size : Int) : Int :=
  if no_incremental_training then
    final_time_window_index - training_time_window_size + 1
  else final_time_window_index

/-- `for time_index in range(start_time_window_index, max_time_index)`:
the list of step indices the loop executes, in order. -/
def loopTimeIndices (start maxIdx : Int) : List Int :=
  (List.range (maxIdx - start).toNat).map (fun (j : Nat) => start + (j : Int))

/-- `time_indices_train = list(range(time_index, time_index +
training_time_window_size))` in sliding-window mode. -/
def timeIndicesTrainSliding (trainWindowSize time_index : Int) : List Int :=
  (List.range trainWindowSize.toNat).map (fun (j : Nat) => time_index + (j : Int))

/-- `time_indices_train = time_index` in incremental mode (a single index). -/
def timeIndicesTrainIncremental (time_index : Int) : Int :=
  time_index

/-- `time_index_eval`: `time_index + training_time_window_size` in
sliding-window mode, `time_index + 1` in incremental mode. -/
def timeIndexEval (no_incremental_training : Bool)
    (trainWindowSize time_index : Int) : Int :=
  if no_incremental_training then time_index + trainWindowSize
  else time_index + 1

theorem getLast?_range_map (n : Nat) (f : Nat → Int) (hn : 0 < n) :
    ((List.range n).map f).getLast? = some (f (n - 1)) := by
  obtain ⟨m, rfl⟩ : ∃ m, n = m + 1 := ⟨n - 1, by omega⟩
  rw [List.range_succ, List.map_append, List.map_singleton,
    List.getLast?_concat]
  simp

/-! ## Claim C2 -/

/-- C2: at every step `s + i` executed by the time-window loop, in
sliding-window (`no_incremental_training`) mode with training window size `K`
the training span is exactly the contiguous range `[s+i, s+i+K-1]` (its last
element being `s+i+K-1`) and the eval index is `s+i+K`; in incremental mode
the step trains on the single index `s+i` and evaluates on `s+i+1`; in both
modes the eval index equals the last train index plus 1. -/
theorem claim_C2 (s K finalIdx i : Int) (hK : 1 ≤ K) (hi : 0 ≤ i) :
    (s + i ∈ loopTimeIndices s (maxTimeIndex true finalIdx K) →
      ((∀ j, j ∈ timeIndicesTrainSliding K (s + i)
          ↔ s + i ≤ j ∧ j ≤ s + i + K - 1)
        ∧ (timeIndicesTrainSliding K (s + i)).getLast? = some (s + i + K - 1)
        ∧ timeIndexEval true K (s + i) = s + i + K
        ∧ timeIndexEval true K (s + i) = (s + i + K - 1) + 1))
    ∧ (s + i ∈ loopTimeIndices s (maxTimeIndex false finalIdx K) →
      (timeIndicesTrainIncremental (s + i) = s + i
        ∧ timeIndexEval false K (s + i)
            = timeIndicesTrainIncremental (s + i) + 1)) := by
  have h3 : timeIndexEval true K (s + i) = s + i + K := by
    simp [timeIndexEval]
  constructor
  · intro _
    refine ⟨?_, ?_, h3, ?_⟩
    · intro j
      simp only [timeIndicesTrainSliding, List.mem_map, List.mem_range]
      constructor
      · rintro ⟨m, hm, rfl⟩
        omega
      · rintro ⟨h1, h2⟩
        exact ⟨(j - (s + i)).toNat, by omega, by omega⟩
    · rw [timeIndicesTrainSliding, getLast?_range_map _ _ (by omega)]
      congr 1
      omega
    · rw [h3]
      omega
  · intro _
    exact ⟨rfl, by simp [timeIndexEval, timeIndicesTrainIncremental]⟩

/-- Witness for C2 at `s = 0`, `K = 2`, `final = 3`, `i = 0`. -/
theorem claim_C2_witness :
    ((0 : Int) + 0 ∈ loopTimeIndices 0 (maxTimeIndex true 3 2) →
      ((∀ j, j ∈ timeIndicesTrainSliding 2 ((0 : Int) + 0)
          ↔ (0 : Int) + 0 ≤ j ∧ j ≤ 0 + 0 + 2 - 1)
        ∧ (timeIndicesTrainSliding 2 ((0 : Int) + 0)).getLast?
            = some (0 + 0 + 2 - 1)
        ∧ timeIndexEval true 2 ((0 : Int) + 0) = 0 + 0 + 2
        ∧ timeIndexEval true 2 ((0 : Int) + 0) = (0 + 0 + 2 - 1) + 1))
    ∧ ((0 : Int) + 0 ∈ loopTimeIndices 0 (maxTimeIndex false 3 2) →
      (timeIndicesTrainIncremental ((0 : Int) + 0) = 0 + 0
        ∧ timeIndexEval false 2 ((0 : Int) + 0)
            = timeIndicesTrainIncremental ((0 : Int) + 0) + 1)) :=
  claim_C2 0 2 3 0 (by decide) (by decide)

/-! ## Average-over-days summary (hf4rec/recsys_main.py, main,
lines 358–375)

`results_over_time` is modelled as the list of per-window metric records in
window order; `pd.DataFrame.from_dict(..., orient="index").mean()` takes the
column-wise arithmetic mean (skipping missing entries, as pandas does), and
each averaged column is re-keyed with the `_AOD` suffix. -/

/-- The values of one metric column of the results-over-time table, in window
order (missing entries skipped, as `pandas` does). -/
def columnValues (windows : List (List (String × ℚ))) (key : String) :
    List ℚ :=
  windows.filterMap (fun w => w.lookup key)

/-- Arithmetic mean of a column, `results_df.mean()` for one column. -/
def colMean (l : List ℚ) : ℚ :=
  l.sum / l.length

/-- `results_avg_time = {f"{k}_AOD": v for k, v in dict(results_df.mean())}`:
one `_AOD`-suffixed entry per metric column. -/
def resultsAvgTime (windows : List (List (String × ℚ)))
    (keys : List String) : List (String × ℚ) :=
  keys.map (fun k => (k ++ "_AOD", colMean (columnValues windows k)))

/-! ## Claim C3 -/

/-- C3: the final summary maps each metric column to the arithmetic mean of
that metric's values across all recorded windows under the key suffixed
`_AOD`; for a run whose two recorded windows have `ndcg_10` values `0.5` and
`0.7`, the summary is exactly `ndcg_10_AOD = 0.6`. -/
theorem claim_C3 :
    (∀ (windows : List (List (String × ℚ))) (keys : List String)
        (k : String), k ∈ keys →
      (k ++ "_AOD", colMean (columnValues windows k))
        ∈ resultsAvgTime windows keys)
    ∧ resultsAvgTime [[("ndcg_10", 1/2)], [("ndcg_10", 7/10)]] ["ndcg_10"]
        = [("ndcg_10_AOD", 3/5)] := by
  constructor
  · intro windows keys k hk
    rw [resultsAvgTime]
    exact List.mem_map.mpr ⟨k, hk, rfl⟩
  · have h1 : columnValues [[("ndcg_10", 1/2)], [("ndcg_10", 7/10)]]
        "ndcg_10" = [1/2, 7/10] := by
      simp [columnValues, List.lookup]
    rw [resultsAvgTime, List.map_cons, List.map_nil, h1]
    norm_num [colMean]
    rfl

/-- Witness for C3's universally-quantified part at the two-window fixture. -/
theorem claim_C3_witness :
    ("ndcg_10_AOD",
        colMean (columnValues [[("ndcg_10", 1/2)], [("ndcg_10", 7/10)]]
          "ndcg_10"))
      ∈ resultsAvgTime [[("ndcg_10", 1/2)], [("ndcg_10", 7/10)]]
          ["ndcg_10"] :=
  claim_C3.1 [[("ndcg_10", 1/2)], [("ndcg_10", 7/10)]] ["ndcg_10"] "ndcg_10"
    (by simp)

/-! ## The scoring head `_NextItemPredictionTask`
(prediction_task.py, lines 521–582) -/

/-- Dot product of two equal-length vectors. -/
def dot (u v : List ℚ) : ℚ :=
  ((u.zip v).map (fun q => q.1 * q.2)).sum

/-- `torch.nn.functional.linear(x, W, b)` on one input row `x : D` with
`W : V × D`, `b : V`: output `j` is `⟨x, W[j]⟩ + b[j]`. -/
def linearRow (W : List (List ℚ)) (b : List ℚ) (x : List ℚ) : List ℚ :=
  (W.zip b).map (fun q => dot x q.1 + q.2)

/-- `torch.nn.functional.linear` on a whole `N × D` input matrix. -/
def functional_linear (X : List (List ℚ)) (W : List (List ℚ))
    (b : List ℚ) : List (List ℚ) :=
  X.map (linearRow W b)

/-- The parameters `_NextItemPredictionTask.__init__` allocates (lines
559–563): with weight tying only a bias vector (`output_layer_bias`), no
weight matrix; without it an owned `torch.nn.Linear` weight and bias. -/
inductive ScoringParams where
  | tied (output_layer_bias : List ℚ)
  | untied (weight : List (List ℚ)) (bias : List ℚ)

/-- `_NextItemPredictionTask.__init__`: in weight-tying mode allocate only
`output_layer_bias = zeros(target_dim)`; otherwise an independent
`torch.nn.Linear(input_size[-1], target_dim)` whose (randomly initialized)
weight and bias are supplied here as `linW`, `linB`. -/
def initScoringParams (weight_tying : Bool) (target_dim : Nat)
    (linW : List (List ℚ)) (linB : List ℚ) : ScoringParams :=
  if weight_tying then ScoringParams.tied (List.replicate target_dim 0)
  else ScoringParams.untied linW linB

/-- The logits stage of `_NextItemPredictionTask.forward` (lines 566–573).
`embW` is the weight of the shared item-embedding table as it stands at call
time: in tying mode the module stores no weight of its own and reads the
table's weight on every call. -/
def nipLogits (params : ScoringParams) (embW : List (List ℚ))
    (X : List (List ℚ)) : List (List ℚ) :=
  match params with
  | ScoringParams.tied b => functional_linear X embW b
  | ScoringParams.untied w b => functional_linear X w b

/-! ## Claim C4 -/

/-- C4: in weight-tying mode the scoring head allocates no separate weight
matrix — only a size-`V` bias initialized to all zeros — and for every input
matrix its logits are the linear map whose weight is the shared
item-embedding table's weight as currently stored (so table updates are
reflected at every step); in non-tying mode an independent linear layer's own
weight and bias are used, unaffected by the embedding table. -/
theorem claim_C4 (V : Nat) (embW linW : List (List ℚ)) (linB : List ℚ)
    (X : List (List ℚ)) :
    initScoringParams true V linW linB
        = ScoringParams.tied (List.replicate V 0)
    ∧ nipLogits (initScoringParams true V linW linB) embW X
        = functional_linear X embW (List.replicate V 0)
    ∧ (∀ embW₁ embW₂ : List (List ℚ),
        nipLogits (ScoringParams.untied linW linB) embW₁ X
          = nipLogits (ScoringParams.untied linW linB) embW₂ X)
    ∧ nipLogits (ScoringParams.untied linW linB) embW X
        = functional_linear X linW linB := by
  refine ⟨?_, ?_, ?_, rfl⟩
  · simp [initScoringParams]
  · simp [initScoringParams, nipLogits]
  · intro embW₁ embW₂
    rfl

/-! ## Temperature scaling and log-softmax
(prediction_task.py, lines 575–580)

`log_softmax` over the vocabulary axis is transcendental, so this part of the
forward pass is modelled over `ℝ`. -/

/-- `torch.nn.LogSoftmax(dim=-1)` on one logits row. -/
noncomputable def logSoftmax (l : List ℝ) : List ℝ :=
  l.map (fun v => v - Real.log ((l.map Real.exp).sum))

/-- `if self.softmax_temperature: logits = torch.div(logits,
self.softmax_temperature)`: Python truthiness makes `0` the implicit disable
sentinel. -/
noncomputable def temperatureScale (softmax_temperature : ℝ)
    (logits : List ℝ) : List ℝ :=
  if softmax_temperature ≠ 0 then
    logits.map (fun v => v / softmax_temperature)
  else logits

/-- `predictions = self.log_softmax(logits)` after optional temperature
scaling: lines 575–580 of `_NextItemPredictionTask.forward`. -/
noncomputable def nipPredictions (softmax_temperature : ℝ)
    (logits : List ℝ) : List ℝ :=
  logSoftmax (temperatureScale softmax_temperature logits)

/-! ## Claim C5 -/

/-- C5: for every logits row and every temperature `τ > 0` (hence not the
implicit disable sentinel `0`), the forward pass divides the logits by `τ`
before — not after — the final log-softmax; and `τ = 1` is a no-op: the
output with `τ = 1` equals the output with scaling disabled. -/
theorem claim_C5 (τ : ℝ) (logits : List ℝ) (hτ : 0 < τ) :
    nipPredictions τ logits
        = logSoftmax (logits.map (fun v => v / τ))
    ∧ nipPredictions 1 logits = nipPredictions 0 logits := by
  constructor
  · rw [nipPredictions, temperatureScale, if_pos (by exact ne_of_gt hτ)]
  · rw [nipPredictions, nipPredictions, temperatureScale, temperatureScale,
      if_pos (by norm_num), if_neg (by norm_num)]
    simp

/-- Witness for C5 at `τ = 2` on the logits row `[0, 1]`. -/
theorem claim_C5_witness :
    (nipPredictions 2 [0, 1]
        = logSoftmax (([0, 1] : List ℝ).map (fun v => v / 2))
    ∧ nipPredictions 1 ([0, 1] : List ℝ) = nipPredictions 0 [0, 1]) :=
  claim_C5 2 [0, 1] (by norm_num)

/-! ## The negative-sampling popularity refresh
(hf4rec/recsys_main.py, lines 253–270)

Inside the time-window loop, the negative-sampling block (lines 253–260)
calls `get_items_sorted_freq(train_data_paths, ...)` and hands the result to
`trainer.model.set_items_freq_for_sampling`; the local variable
`train_data_paths` is only assigned *afterwards*, at line 262.
`samplerRefreshSources` simulates the loop and returns, per step and in step
order, the value of `train_data_paths` the negative-sampling block observes:
`none` means the variable is not yet bound (a Python `NameError` at runtime),
`some (pathsFor i)` the training-partition paths resolved at step `i`
(`pathsFor i` stands for `get_parquet_files_names(data_args,
time_indices_train, is_train=True)` of step `i`). -/

/-- One pass over the remaining loop steps, threading the
`train_data_paths` variable. -/
def samplerRefreshSources {α : Type} (pathsFor : Nat → α) :
    List Nat → Option α → List (Option α)
  | [], _ => []
  | i :: rest, var => var :: samplerRefreshSources pathsFor rest
      (some (pathsFor i))

/-- The training-partition paths the sampler refresh reads at each of the
first `numSteps` loop steps (negative sampling enabled with a nonzero
`neg_sampling_extra_samples_per_batch`). -/
def samplerReads {α : Type} (pathsFor : Nat → α) (numSteps : Nat) :
    List (Option α) :=
  samplerRefreshSources pathsFor (List.range numSteps) none

/-! ## Claim C6 -/

/-- C6 (evaluation at the failing input): with negative sampling enabled, in
a three-step run whose step-`i` training partition is `i`, the sampler
refresh observes `[none, some 0, some 1]` — on the first step
`train_data_paths` is unbound (`none`: a `NameError` in Python, because the
variable is assigned only after the negative-sampling block), and every later
step `i` hands the sampler the PREVIOUS step's training partition `i - 1`,
not the current one as the claim states. -/
theorem claim_C6 :
    samplerReads (fun i => i) 3 = [none, some 0, some 1] := by
  decide

/-! ## Claim C7

The ranking-metric implementation (`transformers4rec/torch/ranking_metric.py`)
is not under `src/`; its accumulator is modelled from the spec. -/

/-- Modelled from the spec: the ranking-metric aggregator state of §4.3 —
"maintains running sums/counts per metric-cutoff pair across calls within one
evaluation pass (streaming mean)". The concrete implementation
(`transformers4rec/torch/ranking_metric.py`) is missing from `src/`. -/
structure MetricAccum where
  total : ℚ
  count : Nat

/-- Modelled from the spec: one metric `update` call adds a batch's per-row
metric values to the running sum and their number to the running count. -/
def metricUpdate (st : MetricAccum) (batch_values : List ℚ) : MetricAccum :=
  ⟨st.total + batch_values.sum, st.count + batch_values.length⟩

theorem maskedSelect_all_false {α : Type} (xs : List α) (m : List Bool)
    (h : ∀ b ∈ m, b = false) : maskedSelect xs m = [] := by
  induction xs generalizing m with
  | nil => simp [maskedSelect]
  | cons a xs ih =>
      cases m with
      | nil => simp [maskedSelect]
      | cons b m' =>
          rw [maskedSelect_cons, h b (by simp),
            ih m' (fun c hc => h c (by simp [hc]))]
          simp

/-- C7: for every batch whose label positions all equal the padding sentinel,
label extraction yields empty `labels_flat` and `states_flat` (no error: both
are total functions of the batch), and the metric accumulators are unchanged
by the resulting zero-length update (no division by zero, no NaN). -/
theorem claim_C7 (L : List (List Int)) (x : List (List (List ℚ)))
    (p : Int) (d : Nat) (hd : 0 < d)
    (hshape : List.Forall₂ (fun lr xr => List.length xr = List.length lr) L x)
    (hD : ∀ xr ∈ x, ∀ v ∈ xr, v.length = d)
    (hpad : ∀ v ∈ trgFlat L, v = p) :
    labels_all L p = []
    ∧ remove_pad_3d x (nonPadMask L p) d = []
    ∧ ∀ st : MetricAccum, metricUpdate st [] = st := by
  have hmask : ∀ b ∈ nonPadMask L p, b = false := by
    intro b hb
    rw [nonPadMask, List.mem_map] at hb
    obtain ⟨v, hv, rfl⟩ := hb
    simp [hpad v hv]
  refine ⟨?_, ?_, ?_⟩
  · rw [labels_all, maskedSelect_all_false _ _ hmask]
  · have hexp : ∀ b ∈ expandMask (nonPadMask L p) d, b = false := by
      intro b hb
      rw [expandMask, List.mem_flatten] at hb
      obtain ⟨r, hr, hbr⟩ := hb
      rw [List.mem_map] at hr
      obtain ⟨c, hc, rfl⟩ := hr
      rw [List.eq_of_mem_replicate hbr]
      exact hmask c hc
    rw [remove_pad_3d]
    rw [maskedSelect_all_false _ _ hexp]
    simp [viewRows]
  · intro st
    simp [metricUpdate]

/-- Witness for C7 at a concrete all-padding batch: `B = 1`, `S = 2`,
`D = 1`, labels `[[0, 0]]`, padding sentinel `0`. -/
theorem claim_C7_witness :
    labels_all [[0, 0]] 0 = []
    ∧ remove_pad_3d [[[5], [6]]] (nonPadMask [[0, 0]] 0) 1 = []
    ∧ ∀ st : MetricAccum, metricUpdate st [] = st :=
  claim_C7 [[0, 0]] [[[5], [6]]] 0 1 (by decide) (by decide) (by decide)
    (by decide)

/-! ## `NextItemPredictionTask.build`
(prediction_task.py, lines 367–410)

`input_size` is either a plain shape (a list of dimension sizes, as a
`torch.Size`) or a dict of shapes; `len(input_size)` is the number of
dimensions resp. of keys. The two `raise ValueError` sites of `build` are
modelled as `Except.error`; the item-id embedding table, the optional
`task_block` and the `pre` block are reduced to the dimensions `build`
wires together. -/

/-- The `input_size` argument of `build`: a shape or a dict of shapes. -/
inductive InputSize where
  | dims (sizes : List Nat)
  | dict (entries : List (String × List Nat))

/-- `len(input_size)`. -/
def inputSizeLen : InputSize → Nat
  | InputSize.dims s => s.length
  | InputSize.dict e => e.length

/-- `isinstance(input_size, dict)`. -/
def isDictInput : InputSize → Bool
  | InputSize.dims _ => false
  | InputSize.dict _ => true

/-- `input_size[-1]` (0 for a dict shape, where the code never reads it). -/
def inputSizeLast : InputSize → Nat
  | InputSize.dims s => (s.getLast?).getD 0
  | InputSize.dict _ => 0

/-- What `build` wires up when it succeeds: the resolved vocabulary size,
the output dimension of the task block (if any; `some item_dim` encodes the
auto-inserted `MLPBlock([item_dim])`), and the last dimension of the input
size the `pre` scoring block is built with. -/
structure NIPBuildResult where
  target_dim : Nat
  task_block : Option Nat
  pre_input_last : Nat
  deriving DecidableEq

/-- `NextItemPredictionTask.build` (lines 367–410): validate the declared
input size and the presence of an `item_id` column; default `target_dim` to
the embedding table's `num_embeddings`; under weight tying with a hidden
size different from the item-embedding dimension and no user task block,
insert an `MLPBlock([item_dim])` projection (logging a warning); then build
the task block and the `pre` scoring block on the task block's output size
(or on the input size when there is no task block). -/
def nipBuild (input_size : InputSize) (has_item_id : Bool)
    (num_embeddings item_dim : Nat) (weight_tying : Bool)
    (task_block : Option Nat) (target_dim : Option Nat) :
    Except String NIPBuildResult :=
  if ¬(inputSizeLen input_size = 3) ∨ isDictInput input_size then
    Except.error "NextItemPredictionTask needs a 3-dim vector as input"
  else if ¬has_item_id then
    Except.error
      "For Item Prediction task a categorical_module including an item_id column is required."
  else
    let targetDim := target_dim.getD num_embeddings
    let taskBlock :=
      if weight_tying ∧ inputSizeLast input_size ≠ item_dim
          ∧ task_block = none then
        some item_dim
      else task_block
    let preInputLast := taskBlock.getD (inputSizeLast input_size)
    Except.ok ⟨targetDim, taskBlock, preInputLast⟩

/-- `Except.isOk` spelled out for `nipBuild`. -/
def buildSucceeds {α : Type} : Except String α → Bool
  | Except.ok _ => true
  | Except.error _ => false

/-! ## Claim C8 -/

/-- C8: `build` raises a configuration `ValueError` at build time exactly
when the declared input size is not 3-dimensional or is a dict-shape, or
when the bound inputs have no `item_id` column; for every well-formed
3-dimensional non-dict input size with an `item_id` column it does not
raise. (`forward` is modelled by total functions — `labels_all`,
`remove_pad_3d`, `nipLogits` — so no such validation happens there.) -/
theorem claim_C8 (input_size : InputSize) (has_item_id : Bool)
    (num_embeddings item_dim : Nat) (weight_tying : Bool)
    (task_block : Option Nat) (target_dim : Option Nat) :
    buildSucceeds (nipBuild input_size has_item_id num_embeddings item_dim
        weight_tying task_block target_dim) = true
      ↔ (inputSizeLen input_size = 3 ∧ isDictInput input_size = false
          ∧ has_item_id = true) := by
  by_cases h1 : ¬(inputSizeLen input_size = 3) ∨ isDictInput input_size
  · rw [nipBuild, if_pos h1]
    simp only [buildSucceeds, Bool.false_eq_true, false_iff]
    rintro ⟨ha, hb, -⟩
    rcases h1 with h | h
    · exact h ha
    · rw [hb] at h
      simp at h
  · rw [nipBuild, if_neg h1]
    push_neg at h1
    obtain ⟨hlen, hdict⟩ := h1
    have hdict' : isDictInput input_size = false := by
      cases hval : isDictInput input_size
      · rfl
      · exact absurd hval hdict
    by_cases h2 : has_item_id = true
    · rw [if_neg (by simp [h2])]
      simp [buildSucceeds, hlen, hdict', h2]
    · have h2' : has_item_id = false := by
        cases hval : has_item_id
        · rfl
        · exact absurd hval h2
      rw [if_pos (by simp [h2'])]
      simp [buildSucceeds, h2']

/-! ## Claim C10 -/

/-- C10: when weight tying is enabled, the hidden dimension differs from the
item-embedding dimension, and no task block was supplied, `build` does not
fail for a well-formed 3-dimensional input with an `item_id` column: it
inserts an MLP projection block to the item-embedding dimension, and the
`pre` scoring block is built with last dimension equal to the embedding
dimension. -/
theorem claim_C10 (sizes : List Nat) (num_embeddings item_dim : Nat)
    (target_dim : Option Nat)
    (h3 : sizes.length = 3)
    (hne : inputSizeLast (InputSize.dims sizes) ≠ item_dim) :
    nipBuild (InputSize.dims sizes) true num_embeddings item_dim true
        none target_dim
      = Except.ok ⟨target_dim.getD num_embeddings, some item_dim,
          item_dim⟩ := by
  rw [nipBuild]
  rw [if_neg (by simp [inputSizeLen, isDictInput, h3])]
  rw [if_neg (by simp)]
  simp [hne]

/-- Witness for C10 at input size `[64, 20, 256]`, embedding dimension
`128`. -/
theorem claim_C10_witness :
    nipBuild (InputSize.dims [64, 20, 256]) true 1000 128 true none none
      = Except.ok ⟨1000, some 128, 128⟩ :=
  claim_C10 [64, 20, 256] 1000 128 none (by decide) (by decide)

/-! ## Metric result keys (prediction_task.py, lines 36–37, 214–215,
477–491) -/

/-- `name_fn` (prediction_task.py, lines 36–37):
`"/".join([name, inp]) if name else None` — a falsy (empty) name yields
`None`. -/
def name_fn (name inp : String) : Option String :=
  if name ≠ "" then some (name ++ "/" ++ inp) else none

/-- First pass of the CamelCase → snake_case conversion: insert `_` before
an uppercase letter that is followed by a lowercase letter or digit. -/
def snakePass1 : List Char → List Char
  | c :: d :: rest =>
      if d.isUpper && (match rest with
          | e :: _ => e.isLower || e.isDigit
          | [] => false) then
        c :: '_' :: snakePass1 (d :: rest)
      else c :: snakePass1 (d :: rest)
  | l => l

/-- Second pass: insert `_` between a lowercase letter or digit and an
uppercase letter. -/
def snakePass2 : List Char → List Char
  | c :: d :: rest =>
      if (c.isLower || c.isDigit) && d.isUpper then
        c :: '_' :: snakePass2 (d :: rest)
      else c :: snakePass2 (d :: rest)
  | l => l

/-- Modelled from the spec: the snake-casing applied to metric class names
when result keys are formed (the implementation,
`merlin_standard_lib.registry.camelcase_to_snakecase`, is vendored in the
repository but not under `src/`): the standard CamelCase → snake_case
conversion — `_` at lower/digit→upper boundaries and before an uppercase
followed by a lowercase/digit, then lowercase everything — sending e.g.
`NDCGAt ↦ ndcg_at`, consistent with the spec's snake_case metric keys. -/
def camelcase_to_snakecase (s : String) : String :=
  String.mk ((snakePass2 (snakePass1 s.data)).map Char.toLower)

/-- A ranking metric as `NextItemPredictionTask.compute_metrics` consumes
it: its class name (e.g. `"NDCGAt"`, prediction_task.py line 340), its
`top_ks` cutoffs, and the per-cutoff scalars `metric.compute()` returns (the
metric internals, `ranking_metric.py`, are not under `src/`). -/
structure RankingMetric where
  class_name : String
  top_ks : List Nat
  computed : List ℚ

/-- `PredictionTask.metric_name` (lines 214–215):
`child_name(camelcase_to_snakecase(type(metric).__name__))`; the task name
is prefixed via `name_fn`; a `None` result prints as `"None"` inside the
f-string key. -/
def metric_name (task_name : String) (m : RankingMetric) : String :=
  match name_fn task_name (camelcase_to_snakecase m.class_name) with
  | some s => s
  | none => "None"

/-- `NextItemPredictionTask.compute_metrics` (lines 477–491): keep the
metrics with truthy (non-empty) `top_ks`, and for each emit one entry per
cutoff, keyed `f"{name}_{k}"` with `name = self.metric_name(metric)`. -/
def compute_metrics (task_name : String) (metrics : List RankingMetric) :
    List (String × ℚ) :=
  ((metrics.filter (fun m => !m.top_ks.isEmpty)).map (fun m =>
    (m.computed.zip m.top_ks).map (fun q =>
      (metric_name task_name m ++ "_" ++ toString q.2, q.1)))).flatten

/-! ## Claim C9

The claim states the result keys follow `<metric>_<k>`, e.g. `ndcg_10` for
NDCG at cutoff 10. The code keys results by
`f"{self.metric_name(metric)}_{k}"`, and `metric_name` prefixes the task
name and snake-cases the metric class name, so the NDCG@10 key is
`next-item/ndcg_at_10` under the default task name — the claim's exact key
format is wrong, its per-(metric, cutoff) cardinality is right. -/

/-- C9 counterexample: for the default `NDCGAt` metric with cutoffs
`[10, 20]` under the default task name `next-item`, the result keys are
`next-item/ndcg_at_10` and `next-item/ndcg_at_20`; no key equals
`ndcg_10`. -/
theorem claim_C9_counterexample :
    (compute_metrics "next-item"
        [⟨"NDCGAt", [10, 20], [3/10, 2/10]⟩]).map (fun q => q.1)
      = ["next-item/ndcg_at_10", "next-item/ndcg_at_20"]
    ∧ ∀ q ∈ compute_metrics "next-item"
          [⟨"NDCGAt", [10, 20], [3/10, 2/10]⟩],
        q.1 ≠ "ndcg_10" := by
  constructor
  · rfl
  · decide

/-- C9 (amended): for every non-empty task name and every configured set of
metrics (each with one computed scalar per cutoff and a non-empty cutoff
list), `compute_metrics` returns exactly one scalar entry per
(metric, cutoff) pair, and each key is
`<task_name>/<snakecase(metric class)>_<k>` — e.g. `next-item/ndcg_at_10`
for NDCG at cutoff 10. -/
theorem claim_C9 (task_name : String) (htn : task_name ≠ "")
    (metrics : List RankingMetric)
    (hlen : ∀ m ∈ metrics, m.computed.length = m.top_ks.length)
    (hk : ∀ m ∈ metrics, ¬(m.top_ks = [])) :
    compute_metrics task_name metrics
      = (metrics.map (fun m => (m.computed.zip m.top_ks).map (fun q =>
          (task_name ++ "/" ++ camelcase_to_snakecase m.class_name
            ++ "_" ++ toString q.2, q.1)))).flatten
    ∧ (compute_metrics task_name metrics).length
        = (metrics.map (fun m => m.top_ks.length)).sum := by
  have hfilter : metrics.filter (fun m => !m.top_ks.isEmpty) = metrics := by
    rw [List.filter_eq_self]
    intro m hm
    simpa [List.isEmpty_iff] using hk m hm
  have h1 : compute_metrics task_name metrics
      = (metrics.map (fun m => (m.computed.zip m.top_ks).map (fun q =>
          (task_name ++ "/" ++ camelcase_to_snakecase m.class_name
            ++ "_" ++ toString q.2, q.1)))).flatten := by
    rw [compute_metrics, hfilter]
    congr 1
    apply List.map_congr_left
    intro m _
    apply List.map_congr_left
    intro q _
    simp [metric_name, name_fn, htn]
  refine ⟨h1, ?_⟩
  rw [h1, List.length_flatten, List.map_map]
  apply congrArg List.sum
  apply List.map_congr_left
  intro m hm
  simp [List.length_zip, hlen m hm]

/-- Witness for C9 (amended) at the default NDCG metric under the default
task name. -/
theorem claim_C9_witness :
    compute_metrics "next-item" [⟨"NDCGAt", [10, 20], [3/10, 2/10]⟩]
      = ([⟨"NDCGAt", [10, 20], [3/10, 2/10]⟩].map
          (fun m : RankingMetric => (m.computed.zip m.top_ks).map (fun q =>
            ("next-item" ++ "/" ++ camelcase_to_snakecase m.class_name
              ++ "_" ++ toString q.2, q.1)))).flatten
    ∧ (compute_metrics "next-item"
          [⟨"NDCGAt", [10, 20], [3/10, 2/10]⟩]).length
        = ([⟨"NDCGAt", [10, 20], [3/10, 2/10]⟩].map
            (fun m : RankingMetric => m.top_ks.length)).sum :=
  claim_C9 "next-item" (by decide) [⟨"NDCGAt", [10, 20], [3/10, 2/10]⟩]
    (by decide) (by decide)

end T4Rec

